import Mathlib

/-!
Shallow embedding of `src/Bento/code.ts`: the bento grid preset table and the
color-style generator (hex parsing, RGB/HSL conversion, adaptive tonal-ramp
synthesis).  JavaScript numbers are modelled as exact rationals, strings as
`List Char`; `Math.round` is `round` (i.e. `⌊x + 1/2⌋`), and `Math.floor` of a
nonnegative integer quotient is natural-number division.
-/

set_option maxHeartbeats 1000000
set_option maxRecDepth 8000

/-- A cell definition in the bento composition (interface `CellSpan`). -/
structure CellSpan where
  row : ℕ
  col : ℕ
  rowSpan : ℕ
  colSpan : ℕ

/-- `PRESETS.grid`: `Array.from({length: r*c}, (_, i) => ({row: ⌊i/c⌋, col: i % c,
rowSpan: 1, colSpan: 1}))`, wrapped with the returned `rows`/`cols`. -/
def PRESETS_grid (r c : ℕ) : ℕ × ℕ × List CellSpan :=
  (r, c, (List.range (r * c)).map fun i => ⟨i / c, i % c, 1, 1⟩)

/-- The character class `[a-f\d]` under the `i` flag: `0-9`, `a-f`, `A-F`. -/
def isHexDigit (c : Char) : Bool :=
  (48 ≤ c.toNat && c.toNat ≤ 57) || (97 ≤ c.toNat && c.toNat ≤ 102) ||
    (65 ≤ c.toNat && c.toNat ≤ 70)

/-- Value of one hex digit, as `parseInt(·, 16)` assigns it (only meaningful on
characters satisfying `isHexDigit`). -/
def hexVal (c : Char) : ℕ :=
  if c.toNat ≤ 57 then c.toNat - 48
  else if 97 ≤ c.toNat then c.toNat - 87
  else c.toNat - 55

/-- Consume the optional leading `#` of the anchored regexes `^#?...$`. -/
def stripHash (s : List Char) : List Char :=
  match s with
  | c :: rest => if c = '#' then rest else s
  | [] => s

/-- `hexToRgb`: first `hex.replace(/^#?([a-f\d])([a-f\d])([a-f\d])$/i, dup)` (the
whole match, `#` included, is replaced by the six duplicated digits), then
`/^#?([a-f\d]{2})([a-f\d]{2})([a-f\d]{2})$/i.exec` and `parseInt(·, 16)` on each
two-digit group; `none` models the `null` result. -/
def hexToRgb (s : List Char) : Option (ℕ × ℕ × ℕ) :=
  let s1 : List Char :=
    match stripHash s with
    | [c1, c2, c3] =>
        if isHexDigit c1 && isHexDigit c2 && isHexDigit c3 then
          [c1, c1, c2, c2, c3, c3]
        else s
    | _ => s
  match stripHash s1 with
  | [c1, c2, c3, c4, c5, c6] =>
      if isHexDigit c1 && isHexDigit c2 && isHexDigit c3 && isHexDigit c4 &&
          isHexDigit c5 && isHexDigit c6 then
        some (16 * hexVal c1 + hexVal c2, 16 * hexVal c3 + hexVal c4,
          16 * hexVal c5 + hexVal c6)
      else none
  | _ => none

/-- Minimal base-16 lowercase digit string of a natural number, accumulator
form: the recursion behind JavaScript's `Number.prototype.toString(16)` on a
nonnegative integer. -/
def natToHexAux (n : ℕ) (acc : List Char) : List Char :=
  if h : n = 0 then acc
  else natToHexAux (n / 16) (Nat.digitChar (n % 16) :: acc)
decreasing_by exact Nat.div_lt_self (Nat.pos_of_ne_zero h) (by norm_num)

/-- `n.toString(16)` for a natural number (`"0"` for zero). -/
def natToHex (n : ℕ) : List Char :=
  if n = 0 then ['0'] else natToHexAux n []

/-- `String.prototype.padStart(n, c)`. -/
def padStart (n : ℕ) (c : Char) (s : List Char) : List Char :=
  List.replicate (n - s.length) c ++ s

/-- `rgbToHex`: `'#' + ((1 << 24) + (r << 16) + (g << 8) + b).toString(16)
.slice(1).padStart(6, '0')`; the shifts are exact multiplications for 8-bit
channel values. -/
def rgbToHex (r g b : ℕ) : List Char :=
  '#' :: padStart 6 '0' ((natToHex (2 ^ 24 + r * 2 ^ 16 + g * 2 ^ 8 + b)).drop 1)

/-- Lightness component of `rgbToHsl` on already-normalized channels:
`(max + min) / 2`. -/
def hslL (x y z : ℚ) : ℚ :=
  (max x (max y z) + min x (min y z)) / 2

/-- Saturation component of `rgbToHsl` on already-normalized channels: `0` when
`max == min`, else `d / (2 - max - min)` when `l > 0.5`, `d / (max + min)`
otherwise. -/
def hslS (x y z : ℚ) : ℚ :=
  let M := max x (max y z)
  let m := min x (min y z)
  if M = m then 0
  else if hslL x y z > 1 / 2 then (M - m) / (2 - M - m) else (M - m) / (M + m)

/-- Hue component of `rgbToHsl` on already-normalized channels, following the
`switch (max)` (the `case r` arm wins ties, and `h` stays `0` in the impossible
no-match default), with the final `h /= 6`. -/
def hslH (x y z : ℚ) : ℚ :=
  let M := max x (max y z)
  let m := min x (min y z)
  if M = m then 0
  else
    (if M = x then (y - z) / (M - m) + (if y < z then 6 else 0)
     else if M = y then (z - x) / (M - m) + 2
     else if M = z then (x - y) / (M - m) + 4
     else 0) / 6

/-- `rgbToHsl(r, g, b)`: divide each channel by 255 and return `[h, s, l]`. -/
def rgbToHsl (r g b : ℚ) : ℚ × ℚ × ℚ :=
  (hslH (r / 255) (g / 255) (b / 255), hslS (r / 255) (g / 255) (b / 255),
    hslL (r / 255) (g / 255) (b / 255))

/-- The local helper `hue2rgb(p, q, t)` of `hslToRgb`, with its two sequential
shifts of `t` into range and the three-piece interpolation. -/
def hue2rgb (p q t : ℚ) : ℚ :=
  let t1 := if t < 0 then t + 1 else t
  let t2 := if t1 > 1 then t1 - 1 else t1
  if t2 < 1 / 6 then p + (q - p) * 6 * t2
  else if t2 < 1 / 2 then q
  else if t2 < 2 / 3 then p + (q - p) * (2 / 3 - t2) * 6
  else p

/-- `hslToRgb(h, s, l)`: the achromatic `s === 0` branch returns the gray
`r = g = b = l`; otherwise `q`/`p` are formed and each channel is produced by
`hue2rgb`; every channel ends as `Math.round(channel * 255)`. -/
def hslToRgb (h s l : ℚ) : ℤ × ℤ × ℤ :=
  if s = 0 then (round (l * 255), round (l * 255), round (l * 255))
  else
    let q := if l < 1 / 2 then l * (1 + s) else l + s - l * s
    let p := 2 * l - q
    (round (hue2rgb p q (h + 1 / 3) * 255), round (hue2rgb p q h * 255),
      round (hue2rgb p q (h - 1 / 3) * 255))

/-- The `TARGET_LIGHTNESS` record, keyed by the numeric value of the weight
label (the value off the table is irrelevant junk). -/
def TARGET_LIGHTNESS : ℕ → ℚ
  | 50 => 0.97
  | 100 => 0.94
  | 200 => 0.86
  | 300 => 0.76
  | 400 => 0.65
  | 500 => 0.54
  | 600 => 0.43
  | 700 => 0.32
  | 800 => 0.22
  | 900 => 0.13
  | 950 => 0.06
  | _ => 0

/-- The `TARGET_SATURATION` record, keyed by the numeric value of the weight
label. -/
def TARGET_SATURATION : ℕ → ℚ
  | 50 => 0.8
  | 100 => 0.85
  | 200 => 0.9
  | 300 => 0.95
  | 400 => 1.0
  | 500 => 1.0
  | 600 => 1.0
  | 700 => 0.98
  | 800 => 0.95
  | 900 => 0.9
  | 950 => 0.85

  | _ => 0

/-- `ALL_WEIGHTS`, in declaration order. -/
def ALL_WEIGHTS : List ℕ :=
  [50, 100, 200, 300, 400, 500, 600, 700, 800, 900, 950]

/-- One iteration of the closest-weight scan: the accumulator carries
`(baseWeight, minLightnessDiff)`, where `none` models the initial `Infinity`
(every finite difference compares `<` against it). -/
def stepMin (l : ℚ) (acc : ℕ × Option ℚ) (w : ℕ) : ℕ × Option ℚ :=
  match acc with
  | (_, none) => (w, some |l - TARGET_LIGHTNESS w|)
  | (b, some m) =>
      if |l - TARGET_LIGHTNESS w| < m then (w, some |l - TARGET_LIGHTNESS w|)
      else (b, some m)

/-- The `for (const weight of ALL_WEIGHTS)` scan that finds the closest weight
for the input lightness, starting from `baseWeight = '500'`,
`minLightnessDiff = Infinity`. -/
def findBase (l : ℚ) : ℕ :=
  (ALL_WEIGHTS.foldl (stepMin l) (500, none)).1

/-- `Math.max(0, Math.min(1, x))`. -/
def clamp01 (x : ℚ) : ℚ :=
  max 0 (min 1 x)

/-- The palette-generation loop of the `generate-palette` handler: deltas are
anchored at the matched weight, each weight gets clamped lightness/saturation,
and the seed hue is passed through unchanged to `hslToRgb`. -/
def generateRamp (h s l : ℚ) : List (ℕ × (ℤ × ℤ × ℤ)) :=
  let baseWeight := findBase l
  let lightnessDelta := l - TARGET_LIGHTNESS baseWeight
  let saturationDelta := s - TARGET_SATURATION baseWeight * s
  ALL_WEIGHTS.map fun w =>
    (w, hslToRgb h (clamp01 (TARGET_SATURATION w * s + saturationDelta))
      (clamp01 (TARGET_LIGHTNESS w + lightnessDelta)))

/-- The string key of a table weight, as used in style and variable names. -/
def weightLabel (w : ℕ) : List Char :=
  match w with
  | 50 => ['5', '0']
  | 100 => ['1', '0', '0']
  | 200 => ['2', '0', '0']
  | 300 => ['3', '0', '0']
  | 400 => ['4', '0', '0']
  | 500 => ['5', '0', '0']
  | 600 => ['6', '0', '0']
  | 700 => ['7', '0', '0']
  | 800 => ['8', '0', '0']
  | 900 => ['9', '0', '0']
  | 950 => ['9', '5', '0']
  | _ => []

/-- Observable document/UI operations performed by the `generate-palette`
handler, in program order. -/
inductive FigmaOp where
  | mkCollection (nm : List Char)
  | notifyMsg (msg : List Char) (isError : Bool)
  | mkPaintStyle (nm : List Char) (r g b : ℚ)
  | mkVariable (nm : List Char)
  | setVariableValue (nm : List Char) (r g b : ℚ)
  | closePlugin
deriving DecidableEq

/-- The `generate-palette` message handler: it creates the `'UI Colors'`
variable collection first, then parses the seed hex; on failure it notifies
with an error and returns, otherwise it creates one paint style plus one
variable (with a mode value) per weight, each channel divided by 255, then
notifies success and closes the plugin. -/
def handleGeneratePalette (nm hex : List Char) : List FigmaOp :=
  FigmaOp.mkCollection ("UI Colors".toList) ::
    match hexToRgb hex with
    | none => [FigmaOp.notifyMsg ("Invalid hex code provided.".toList) true]
    | some (r, g, b) =>
        let hsl := rgbToHsl (r : ℚ) (g : ℚ) (b : ℚ)
        ((generateRamp hsl.1 hsl.2.1 hsl.2.2).flatMap fun wc =>
          [FigmaOp.mkPaintStyle
              ("UI Colors/".toList ++ nm ++ '/' :: weightLabel wc.1)
              ((wc.2.1 : ℚ) / 255) ((wc.2.2.1 : ℚ) / 255) ((wc.2.2.2 : ℚ) / 255),
            FigmaOp.mkVariable (nm ++ '/' :: weightLabel wc.1),
            FigmaOp.setVariableValue (nm ++ '/' :: weightLabel wc.1)
              ((wc.2.1 : ℚ) / 255) ((wc.2.2.1 : ℚ) / 255) ((wc.2.2.2 : ℚ) / 255)]) ++
          [FigmaOp.notifyMsg ("styles created in the \"UI Colors\" group!".toList) false,
            FigmaOp.closePlugin]

/-- C10: `PRESETS.grid(r, c)` returns exactly `r * c` cells, each with
`rowSpan = 1` and `colSpan = 1`, enumerated in row-major order (cell `i` has
`row = ⌊i / c⌋`, `col = i % c`), so every position `(row, col)` with
`row < r`, `col < c` is covered exactly once. -/
theorem grid_preset_tiling (r c : ℕ) (hr : 1 ≤ r) (hc : 1 ≤ c) :
    ((PRESETS_grid r c).2.2).length = r * c ∧
    (∀ i, i < r * c → ((PRESETS_grid r c).2.2)[i]? = some ⟨i / c, i % c, 1, 1⟩) ∧
    (∀ cell ∈ (PRESETS_grid r c).2.2, cell.rowSpan = 1 ∧ cell.colSpan = 1) ∧
    (∀ row col, row < r → col < c →
      ∃! i : ℕ, ∃ cell : CellSpan, ((PRESETS_grid r c).2.2)[i]? = some cell ∧
        cell.row = row ∧ cell.col = col) := by
  have hget : ∀ i, i < r * c →
      ((PRESETS_grid r c).2.2)[i]? = some ⟨i / c, i % c, 1, 1⟩ := by
    intro i hi
    simp [PRESETS_grid, List.getElem?_map, List.getElem?_range, hi]
  refine ⟨by simp [PRESETS_grid], hget, ?_, ?_⟩
  · intro cell hcell
    simp only [PRESETS_grid, List.mem_map] at hcell
    obtain ⟨i, _, rfl⟩ := hcell
    exact ⟨rfl, rfl⟩
  · intro row col hrow hcol
    have hidx : row * c + col < r * c := by
      calc row * c + col < row * c + c := by omega
        _ = (row + 1) * c := by ring
        _ ≤ r * c := Nat.mul_le_mul_right c hrow
    have hdiv : (row * c + col) / c = row := by
      rw [Nat.mul_comm, Nat.mul_add_div (by omega), Nat.div_eq_of_lt hcol]
      omega
    have hmod : (row * c + col) % c = col := by
      rw [Nat.mul_comm, Nat.mul_add_mod, Nat.mod_eq_of_lt hcol]
    refine ⟨row * c + col, ⟨⟨(row * c + col) / c, (row * c + col) % c, 1, 1⟩,
      hget _ hidx, hdiv, hmod⟩, ?_⟩
    intro j hj
    obtain ⟨cell, hjget, hjrow, hjcol⟩ := hj
    have hjlt : j < r * c := by
      by_contra hge
      rw [List.getElem?_eq_none] at hjget
      · exact Option.noConfusion hjget
      · simp [PRESETS_grid]
        omega
    rw [hget j hjlt] at hjget
    injection hjget with hcell
    subst hcell
    have hj1 : j / c = row := hjrow
    have hj2 : j % c = col := hjcol
    have := Nat.div_add_mod j c
    rw [hj1, hj2] at this
    rw [← this, Nat.mul_comm]

/-- Witness for C10 at `r = 2`, `c = 3`. -/
theorem grid_preset_tiling_witness :
    1 ≤ 2 ∧ 1 ≤ 3 ∧ ((PRESETS_grid 2 3).2.2).length = 2 * 3 ∧
      ((PRESETS_grid 2 3).2.2)[4]? = some ⟨1, 1, 1, 1⟩ :=
  ⟨by decide, by decide, (grid_preset_tiling 2 3 (by decide) (by decide)).1,
    (grid_preset_tiling 2 3 (by decide) (by decide)).2.1 4 (by decide)⟩

/-- The characters matched by `[a-f\d]` with the `i` flag, explicitly. -/
theorem isHexDigit_mem_cases (c : Char) (h : isHexDigit c = true) :
    c ∈ (['0', '1', '2', '3', '4', '5', '6', '7', '8', '9', 'A', 'B', 'C',
      'D', 'E', 'F', 'a', 'b', 'c', 'd', 'e', 'f'] : List Char) := by
  have hb := h
  simp only [isHexDigit, Bool.or_eq_true, Bool.and_eq_true,
    decide_eq_true_eq] at hb
  have hn : c.toNat = 48 ∨ c.toNat = 49 ∨ c.toNat = 50 ∨ c.toNat = 51 ∨
      c.toNat = 52 ∨ c.toNat = 53 ∨ c.toNat = 54 ∨ c.toNat = 55 ∨
      c.toNat = 56 ∨ c.toNat = 57 ∨ c.toNat = 97 ∨ c.toNat = 98 ∨
      c.toNat = 99 ∨ c.toNat = 100 ∨ c.toNat = 101 ∨ c.toNat = 102 ∨
      c.toNat = 65 ∨ c.toNat = 66 ∨ c.toNat = 67 ∨ c.toNat = 68 ∨
      c.toNat = 69 ∨ c.toNat = 70 := by omega
  rw [← Char.ofNat_toNat c]
  rcases hn with h1 | h1 | h1 | h1 | h1 | h1 | h1 | h1 | h1 | h1 | h1 | h1 |
    h1 | h1 | h1 | h1 | h1 | h1 | h1 | h1 | h1 | h1 <;> (rw [h1]; decide)

/-- A hex digit is never the `#` character. -/
theorem isHexDigit_ne_hash (c : Char) (h : isHexDigit c = true) : c ≠ '#' := by
  have := isHexDigit_mem_cases c h
  fin_cases this <;> decide

/-- The numeric value of a hex digit is below 16. -/
theorem hexVal_lt_16 (c : Char) (h : isHexDigit c = true) : hexVal c < 16 := by
  have := isHexDigit_mem_cases c h
  fin_cases this <;> decide

/-- Printing the value of a hex digit lowercases it. -/
theorem digitChar_hexVal (c : Char) (h : isHexDigit c = true) :
    Nat.digitChar (hexVal c) = c.toLower := by
  have := isHexDigit_mem_cases c h
  fin_cases this <;> decide

/-- The 16 digit characters are hex digits and parse back to their value. -/
theorem hexVal_digitChar : ∀ x, x < 16 →
    isHexDigit (Nat.digitChar x) = true ∧ hexVal (Nat.digitChar x) = x := by
  decide

/-- `stripHash` of a list not headed by `#` is the identity. -/
theorem stripHash_of_ne_hash (c : Char) (rest : List Char) (h : c ≠ '#') :
    stripHash (c :: rest) = c :: rest := by
  simp [stripHash, h]

/-- C5: `hexToRgb` returns a color exactly when the input is, after an optional
leading `#`, either exactly 3 or exactly 6 hex digits (case-insensitive), and
returns `null` for every other length or non-hex content; a 3-digit shorthand
parses to the same color as its digit-duplicated 6-digit form. -/
theorem hexToRgb_contract :
    (∀ s : List Char,
      (hexToRgb s).isSome = true ↔
        (((stripHash s).length = 3 ∨ (stripHash s).length = 6) ∧
          ∀ c ∈ stripHash s, isHexDigit c = true)) ∧
    (∀ s c1 c2 c3, stripHash s = [c1, c2, c3] →
      hexToRgb s = hexToRgb [c1, c1, c2, c2, c3, c3]) := by
  constructor
  · intro s
    rcases h3 : stripHash s with
      _ | ⟨a, _ | ⟨b, _ | ⟨c, _ | ⟨d, _ | ⟨e, _ | ⟨f, _ | ⟨g, rest⟩⟩⟩⟩⟩⟩⟩
    · simp [hexToRgb, h3]
    · simp [hexToRgb, h3]
    · simp [hexToRgb, h3]
    · by_cases hhex : (isHexDigit a && isHexDigit b && isHexDigit c) = true
      · obtain ⟨⟨ha, hb⟩, hc⟩ : (isHexDigit a = true ∧ isHexDigit b = true) ∧
            isHexDigit c = true := by simpa [Bool.and_eq_true] using hhex
        simp [hexToRgb, h3, hhex, ha, hb, hc,
          stripHash_of_ne_hash a _ (isHexDigit_ne_hash a ha)]
      · have hhex' : (isHexDigit a && isHexDigit b && isHexDigit c) = false := by
          simpa using hhex
        have hnone : hexToRgb s = none := by
          simp [hexToRgb, h3, hhex']
        rw [hnone]
        simp only [Option.isSome_none, Bool.false_eq_true, false_iff]
        intro hall
        obtain ⟨_, hmem⟩ := hall
        apply hhex
        simp [Bool.and_eq_true, hmem a (by simp), hmem b (by simp),
          hmem c (by simp)]
    · simp [hexToRgb, h3]
    · simp [hexToRgb, h3]
    · by_cases hhex : (isHexDigit a && isHexDigit b && isHexDigit c &&
          isHexDigit d && isHexDigit e && isHexDigit f) = true
      · obtain ⟨⟨⟨⟨⟨ha, hb⟩, hc⟩, hd⟩, he⟩, hf⟩ : ((((isHexDigit a = true ∧
            isHexDigit b = true) ∧ isHexDigit c = true) ∧ isHexDigit d = true) ∧
            isHexDigit e = true) ∧ isHexDigit f = true := by
          simpa [Bool.and_eq_true] using hhex
        simp [hexToRgb, h3, ha, hb, hc, hd, he, hf]
      · have hhex' : (isHexDigit a && isHexDigit b && isHexDigit c &&
            isHexDigit d && isHexDigit e && isHexDigit f) = false := by
          simpa using hhex
        have hnone : hexToRgb s = none := by
          simp [hexToRgb, h3, hhex']
        rw [hnone]
        simp only [Option.isSome_none, Bool.false_eq_true, false_iff]
        intro hall
        obtain ⟨_, hmem⟩ := hall
        apply hhex
        simp [Bool.and_eq_true, hmem a (by simp), hmem b (by simp),
          hmem c (by simp), hmem d (by simp), hmem e (by simp),
          hmem f (by simp)]
    · have hnone : hexToRgb s = none := by
        simp [hexToRgb, h3]
      rw [hnone]
      simp only [Option.isSome_none, Bool.false_eq_true, false_iff]
      intro hall
      obtain ⟨hlen, _⟩ := hall
      simp [h3] at hlen
  · intro s c1 c2 c3 h3
    by_cases hhex : (isHexDigit c1 && isHexDigit c2 && isHexDigit c3) = true
    · obtain ⟨⟨h1, h2⟩, hc3⟩ : (isHexDigit c1 = true ∧ isHexDigit c2 = true) ∧
          isHexDigit c3 = true := by simpa [Bool.and_eq_true] using hhex
      have hne := isHexDigit_ne_hash c1 h1
      simp [hexToRgb, h3, hhex, h1, h2, hc3, stripHash_of_ne_hash c1 _ hne]
    · have hhex' : (isHexDigit c1 && isHexDigit c2 && isHexDigit c3) = false := by
        simpa using hhex
      have hL : hexToRgb s = none := by
        simp [hexToRgb, h3, hhex']
      have hR : hexToRgb [c1, c1, c2, c2, c3, c3] = none := by
        by_cases hne : c1 = '#'
        · subst hne
          simp [hexToRgb, stripHash]
        · have hs6 : stripHash [c1, c1, c2, c2, c3, c3] =
              [c1, c1, c2, c2, c3, c3] := stripHash_of_ne_hash c1 _ hne
          have hfalse : (isHexDigit c1 && isHexDigit c1 && isHexDigit c2 &&
              isHexDigit c2 && isHexDigit c3 && isHexDigit c3) = false := by
            rcases Bool.eq_false_or_eq_true (isHexDigit c1) with h1 | h1 <;>
              rcases Bool.eq_false_or_eq_true (isHexDigit c2) with h2 | h2 <;>
              rcases Bool.eq_false_or_eq_true (isHexDigit c3) with hc3 | hc3 <;>
              simp [h1, h2, hc3] <;> simp [h1, h2, hc3] at hhex'
          simp [hexToRgb, hs6, hfalse]
          intro h1 h2
          simpa [h1, h2] using hhex'
      rw [hL, hR]

/-- Witness for C5: `#0f0` is accepted and parses like `00ff00`. -/
theorem hexToRgb_contract_witness :
    (hexToRgb "#0f0".toList).isSome = true ∧
    hexToRgb "#0f0".toList = hexToRgb "00ff00".toList :=
  ⟨(hexToRgb_contract.1 "#0f0".toList).mpr (by decide),
    hexToRgb_contract.2 "#0f0".toList '0' 'f' '0' (by decide)⟩

/-- Unfolding `natToHexAux` once on a positive input. -/
theorem natToHexAux_pos (n : ℕ) (acc : List Char) (h : n ≠ 0) :
    natToHexAux n acc = natToHexAux (n / 16) (Nat.digitChar (n % 16) :: acc) := by
  rw [natToHexAux]
  simp [h]

/-- The seven hex digits of `(1 << 24) + (r << 16) + (g << 8) + b` for 8-bit
channels, with each channel split into its two nibbles. -/
theorem natToHex_rgb (r1 r0 g1 g0 b1 b0 : ℕ) (hr1 : r1 < 16) (hr0 : r0 < 16)
    (hg1 : g1 < 16) (hg0 : g0 < 16) (hb1 : b1 < 16) (hb0 : b0 < 16) :
    natToHex (2 ^ 24 + (16 * r1 + r0) * 2 ^ 16 + (16 * g1 + g0) * 2 ^ 8 +
        (16 * b1 + b0)) =
      ['1', Nat.digitChar r1, Nat.digitChar r0, Nat.digitChar g1,
        Nat.digitChar g0, Nat.digitChar b1, Nat.digitChar b0] := by
  have e : 2 ^ 24 + (16 * r1 + r0) * 2 ^ 16 + (16 * g1 + g0) * 2 ^ 8 +
      (16 * b1 + b0) =
      16777216 + (16 * r1 + r0) * 65536 + (16 * g1 + g0) * 256 +
        (16 * b1 + b0) := by norm_num
  rw [natToHex, if_neg (by omega), e]
  rw [natToHexAux_pos _ _ (by omega)]
  have d1 : (16777216 + (16 * r1 + r0) * 65536 + (16 * g1 + g0) * 256 +
      (16 * b1 + b0)) % 16 = b0 := by omega
  have q1 : (16777216 + (16 * r1 + r0) * 65536 + (16 * g1 + g0) * 256 +
      (16 * b1 + b0)) / 16 = 1048576 + (16 * r1 + r0) * 4096 +
        (16 * g1 + g0) * 16 + b1 := by omega
  rw [d1, q1, natToHexAux_pos _ _ (by omega)]
  have d2 : (1048576 + (16 * r1 + r0) * 4096 + (16 * g1 + g0) * 16 + b1) % 16 =
      b1 := by omega
  have q2 : (1048576 + (16 * r1 + r0) * 4096 + (16 * g1 + g0) * 16 + b1) / 16 =
      65536 + (16 * r1 + r0) * 256 + (16 * g1 + g0) := by omega
  rw [d2, q2, natToHexAux_pos _ _ (by omega)]
  have d3 : (65536 + (16 * r1 + r0) * 256 + (16 * g1 + g0)) % 16 = g0 := by
    omega
  have q3 : (65536 + (16 * r1 + r0) * 256 + (16 * g1 + g0)) / 16 =
      4096 + (16 * r1 + r0) * 16 + g1 := by omega
  rw [d3, q3, natToHexAux_pos _ _ (by omega)]
  have d4 : (4096 + (16 * r1 + r0) * 16 + g1) % 16 = g1 := by omega
  have q4 : (4096 + (16 * r1 + r0) * 16 + g1) / 16 = 256 + (16 * r1 + r0) := by
    omega
  rw [d4, q4, natToHexAux_pos _ _ (by omega)]
  have d5 : (256 + (16 * r1 + r0)) % 16 = r0 := by omega
  have q5 : (256 + (16 * r1 + r0)) / 16 = 16 + r1 := by omega
  rw [d5, q5, natToHexAux_pos _ _ (by omega)]
  have d6 : (16 + r1) % 16 = r1 := by omega
  have q6 : (16 + r1) / 16 = 1 := by omega
  rw [d6, q6, natToHexAux_pos _ _ (by omega)]
  norm_num
  rw [natToHexAux]
  simp
  decide

/-- `rgbToHex` on 8-bit channels spelled digit by digit. -/
theorem rgbToHex_digits (r g b : ℕ) (hr : r ≤ 255) (hg : g ≤ 255)
    (hb : b ≤ 255) :
    rgbToHex r g b =
      ['#', Nat.digitChar (r / 16), Nat.digitChar (r % 16),
        Nat.digitChar (g / 16), Nat.digitChar (g % 16),
        Nat.digitChar (b / 16), Nat.digitChar (b % 16)] := by
  have er : r = 16 * (r / 16) + r % 16 := by omega
  have eg : g = 16 * (g / 16) + g % 16 := by omega
  have eb : b = 16 * (b / 16) + b % 16 := by omega
  rw [rgbToHex]
  rw [show 2 ^ 24 + r * 2 ^ 16 + g * 2 ^ 8 + b =
      2 ^ 24 + (16 * (r / 16) + r % 16) * 2 ^ 16 +
        (16 * (g / 16) + g % 16) * 2 ^ 8 + (16 * (b / 16) + b % 16) by omega]
  rw [natToHex_rgb _ _ _ _ _ _ (by omega) (by omega) (by omega) (by omega)
    (by omega) (by omega)]
  simp [padStart]

/-- C6: for every `#`-prefixed 6-hex-digit string, `rgbToHex` of the parsed
channels returns the string back up to letter case (as a `#`-prefixed
zero-padded 6-digit hex string), and `rgbToHex` is a bit-exact inverse of
`hexToRgb` on every color with 8-bit integer channels. -/
theorem hex_roundtrip :
    (∀ c1 c2 c3 c4 c5 c6 : Char,
      (∀ c ∈ [c1, c2, c3, c4, c5, c6], isHexDigit c = true) →
      ∃ r g b : ℕ,
        hexToRgb ('#' :: [c1, c2, c3, c4, c5, c6]) = some (r, g, b) ∧
        rgbToHex r g b = ('#' :: [c1, c2, c3, c4, c5, c6]).map Char.toLower) ∧
    (∀ r g b : ℕ, r ≤ 255 → g ≤ 255 → b ≤ 255 →
      hexToRgb (rgbToHex r g b) = some (r, g, b)) := by
  constructor
  · intro c1 c2 c3 c4 c5 c6 hall
    have h1 : isHexDigit c1 = true := hall c1 (by simp)
    have h2 : isHexDigit c2 = true := hall c2 (by simp)
    have h3 : isHexDigit c3 = true := hall c3 (by simp)
    have h4 : isHexDigit c4 = true := hall c4 (by simp)
    have h5 : isHexDigit c5 = true := hall c5 (by simp)
    have h6 : isHexDigit c6 = true := hall c6 (by simp)
    have hv1 := hexVal_lt_16 c1 h1
    have hv2 := hexVal_lt_16 c2 h2
    have hv3 := hexVal_lt_16 c3 h3
    have hv4 := hexVal_lt_16 c4 h4
    have hv5 := hexVal_lt_16 c5 h5
    have hv6 := hexVal_lt_16 c6 h6
    refine ⟨16 * hexVal c1 + hexVal c2, 16 * hexVal c3 + hexVal c4,
      16 * hexVal c5 + hexVal c6, ?_, ?_⟩
    · simp [hexToRgb, stripHash, h1, h2, h3, h4, h5, h6]
    · rw [rgbToHex_digits _ _ _ (by omega) (by omega) (by omega)]
      have e1 : (16 * hexVal c1 + hexVal c2) / 16 = hexVal c1 := by omega
      have e2 : (16 * hexVal c1 + hexVal c2) % 16 = hexVal c2 := by omega
      have e3 : (16 * hexVal c3 + hexVal c4) / 16 = hexVal c3 := by omega
      have e4 : (16 * hexVal c3 + hexVal c4) % 16 = hexVal c4 := by omega
      have e5 : (16 * hexVal c5 + hexVal c6) / 16 = hexVal c5 := by omega
      have e6 : (16 * hexVal c5 + hexVal c6) % 16 = hexVal c6 := by omega
      rw [e1, e2, e3, e4, e5, e6, digitChar_hexVal c1 h1,
        digitChar_hexVal c2 h2, digitChar_hexVal c3 h3, digitChar_hexVal c4 h4,
        digitChar_hexVal c5 h5, digitChar_hexVal c6 h6]
      have hh : ('#' : Char).toLower = '#' := by decide
      simp [hh]
  · intro r g b hr hg hb
    rw [rgbToHex_digits r g b hr hg hb]
    have hd1 := hexVal_digitChar (r / 16) (by omega)
    have hd2 := hexVal_digitChar (r % 16) (by omega)
    have hd3 := hexVal_digitChar (g / 16) (by omega)
    have hd4 := hexVal_digitChar (g % 16) (by omega)
    have hd5 := hexVal_digitChar (b / 16) (by omega)
    have hd6 := hexVal_digitChar (b % 16) (by omega)
    simp [hexToRgb, stripHash, hd1.1, hd2.1, hd3.1, hd4.1, hd5.1, hd6.1,
      hd1.2, hd2.2, hd3.2, hd4.2, hd5.2, hd6.2]
    refine ⟨by omega, by omega, by omega⟩

/-- Witness for C6 at `#3B82F6` and `(59, 130, 246)`. -/
theorem hex_roundtrip_witness :
    (∃ r g b : ℕ,
      hexToRgb ('#' :: ['3', 'B', '8', '2', 'F', '6']) = some (r, g, b) ∧
      rgbToHex r g b =
        ('#' :: ['3', 'B', '8', '2', 'F', '6']).map Char.toLower) ∧
    hexToRgb (rgbToHex 59 130 246) = some (59, 130, 246) :=
  ⟨hex_roundtrip.1 '3' 'B' '8' '2' 'F' '6' (by decide),
    hex_roundtrip.2 59 130 246 (by decide) (by decide) (by decide)⟩

/-- The closest-weight scan in structural-recursion form, carrying the current
best weight `b`. -/
def firstMinAux (l : ℚ) (b : ℕ) : List ℕ → ℕ
  | [] => b
  | w :: ws =>
      if |l - TARGET_LIGHTNESS w| < |l - TARGET_LIGHTNESS b| then
        firstMinAux l w ws
      else firstMinAux l b ws

/-- The fold of `stepMin` agrees with `firstMinAux` once the accumulator holds
a finite minimum. -/
theorem foldl_stepMin (l : ℚ) (ws : List ℕ) : ∀ b : ℕ,
    (ws.foldl (stepMin l) (b, some |l - TARGET_LIGHTNESS b|)).1 =
      firstMinAux l b ws := by
  induction ws with
  | nil => intro b; rfl
  | cons w ws ih =>
      intro b
      by_cases h : |l - TARGET_LIGHTNESS w| < |l - TARGET_LIGHTNESS b|
      · simp [List.foldl_cons, stepMin, firstMinAux, h, ih]
      · simp [List.foldl_cons, stepMin, firstMinAux, h, ih]

/-- `findBase` is the scan from the first table weight onward. -/
theorem findBase_eq_firstMinAux (l : ℚ) :
    findBase l =
      firstMinAux l 50 [100, 200, 300, 400, 500, 600, 700, 800, 900, 950] := by
  have h0 : stepMin l (500, none) 50 = (50, some |l - TARGET_LIGHTNESS 50|) :=
    rfl
  unfold findBase ALL_WEIGHTS
  rw [List.foldl_cons, h0]
  exact foldl_stepMin l _ 50

/-- The scan returns the first minimizer: everything before it in the list is
strictly farther, everything after it at least as far. -/
theorem firstMinAux_decomp (l : ℚ) (ws : List ℕ) : ∀ b : ℕ,
    ∃ pre post, b :: ws = pre ++ firstMinAux l b ws :: post ∧
      (∀ w ∈ pre,
        |l - TARGET_LIGHTNESS (firstMinAux l b ws)| <
          |l - TARGET_LIGHTNESS w|) ∧
      (∀ w ∈ post,
        |l - TARGET_LIGHTNESS (firstMinAux l b ws)| ≤
          |l - TARGET_LIGHTNESS w|) := by
  induction ws with
  | nil =>
      intro b
      exact ⟨[], [], rfl, by simp, by simp⟩
  | cons w ws ih =>
      intro b
      by_cases h : |l - TARGET_LIGHTNESS w| < |l - TARGET_LIGHTNESS b|
      · obtain ⟨pre, post, heq, hpre, hpost⟩ := ih w
        have hr : firstMinAux l b (w :: ws) = firstMinAux l w ws := by
          simp [firstMinAux, h]
        rw [hr]
        have hdrw : |l - TARGET_LIGHTNESS (firstMinAux l w ws)| ≤
            |l - TARGET_LIGHTNESS w| := by
          rcases pre with _ | ⟨p0, ptl⟩
          · simp only [List.nil_append, List.cons.injEq] at heq
            rw [← heq.1]
          · simp only [List.cons_append, List.cons.injEq] at heq
            exact le_of_lt (heq.1 ▸ hpre p0 (by simp))
        refine ⟨b :: pre, post, by simpa using heq, ?_, hpost⟩
        intro u hu
        rcases List.mem_cons.mp hu with rfl | hu
        · exact lt_of_le_of_lt hdrw h
        · exact hpre u hu
      · obtain ⟨pre, post, heq, hpre, hpost⟩ := ih b
        have hr : firstMinAux l b (w :: ws) = firstMinAux l b ws := by
          simp [firstMinAux, h]
        rw [hr]
        push_neg at h
        rcases pre with _ | ⟨p0, ptl⟩
        · simp only [List.nil_append, List.cons.injEq] at heq
          refine ⟨[], w :: ws, by simp [← heq.1], by simp, ?_⟩
          intro u hu
          rcases List.mem_cons.mp hu with rfl | hu
          · rw [← heq.1]; exact h
          · rw [heq.2] at hu
            exact hpost u hu
        · simp only [List.cons_append, List.cons.injEq] at heq
          have hb : |l - TARGET_LIGHTNESS (firstMinAux l b ws)| <
              |l - TARGET_LIGHTNESS b| := heq.1 ▸ hpre p0 (by simp)
          refine ⟨b :: w :: ptl, post, ?_, ?_, hpost⟩
          · simp only [List.cons_append]
            conv_lhs => rw [heq.2]
          · intro u hu
            rcases List.mem_cons.mp hu with rfl | hu
            · exact hb
            · rcases List.mem_cons.mp hu with rfl | hu
              · exact lt_of_lt_of_le hb h
              · exact hpre u (by simp [hu])

/-- `generateRamp` unfolded to its per-weight formula. -/
theorem generateRamp_eq_map (h s l : ℚ) :
    generateRamp h s l = ALL_WEIGHTS.map fun w =>
      (w, hslToRgb h
        (clamp01 (TARGET_SATURATION w * s +
          (s - TARGET_SATURATION (findBase l) * s)))
        (clamp01 (TARGET_LIGHTNESS w + (l - TARGET_LIGHTNESS (findBase l))))) :=
  rfl

/-- C3: the ramp output at each of the 11 weights is
`hslToRgb(H, clamp01(TS[w]*S + (S - TS[w0]*S)), clamp01(TL[w] + (L - TL[w0])))`
with `w0` the matched weight; saturation and lightness are clamped to `[0, 1]`
before conversion, and the hue passed to `hslToRgb` is always the seed hue. -/
theorem ramp_synthesis_formula (h s l : ℚ) :
    generateRamp h s l = ALL_WEIGHTS.map (fun w =>
      (w, hslToRgb h
        (clamp01 (TARGET_SATURATION w * s +
          (s - TARGET_SATURATION (findBase l) * s)))
        (clamp01 (TARGET_LIGHTNESS w +
          (l - TARGET_LIGHTNESS (findBase l)))))) ∧
    ∀ x : ℚ, 0 ≤ clamp01 x ∧ clamp01 x ≤ 1 :=
  ⟨generateRamp_eq_map h s l,
    fun x => ⟨le_max_left 0 _, max_le (by norm_num) (min_le_left 1 x)⟩⟩

/-- C4: `findBase` returns the first weight of the table minimizing
`|L - TARGET_LIGHTNESS w|` (earlier weights are strictly farther, later ones at
least as far, so ties go to the earlier weight), and seed `#3B82F6` matches
weight 400. -/
theorem nearest_weight_match (l : ℚ) :
    (∃ pre post, ALL_WEIGHTS = pre ++ findBase l :: post ∧
      (∀ w ∈ pre,
        |l - TARGET_LIGHTNESS (findBase l)| < |l - TARGET_LIGHTNESS w|) ∧
      (∀ w ∈ post,
        |l - TARGET_LIGHTNESS (findBase l)| ≤ |l - TARGET_LIGHTNESS w|)) ∧
    hexToRgb "#3B82F6".toList = some (59, 130, 246) ∧
    findBase (rgbToHsl 59 130 246).2.2 = 400 := by
  refine ⟨?_, by decide, ?_⟩
  · rw [findBase_eq_firstMinAux]
    have hd := firstMinAux_decomp l
      [100, 200, 300, 400, 500, 600, 700, 800, 900, 950] 50
    simpa [ALL_WEIGHTS] using hd
  · norm_num [findBase, ALL_WEIGHTS, stepMin, TARGET_LIGHTNESS, rgbToHsl,
      hslL, List.foldl, abs_of_nonneg, abs_neg]

/-- Witness for C4: the concrete `#3B82F6` part of the statement. -/
theorem nearest_weight_match_witness :
    hexToRgb "#3B82F6".toList = some (59, 130, 246) ∧
    findBase (rgbToHsl 59 130 246).2.2 = 400 :=
  (nearest_weight_match 0).2

/-- The clamped output lightness of the ramp at each weight, in table order
(the third argument passed to `hslToRgb` on line 376 of the source). -/
def rampLightness (l : ℚ) : List ℚ :=
  ALL_WEIGHTS.map fun w =>
    clamp01 (TARGET_LIGHTNESS w + (l - TARGET_LIGHTNESS (findBase l)))

/-- `clamp01` is monotone. -/
theorem clamp01_mono {x y : ℚ} (hxy : x ≤ y) : clamp01 x ≤ clamp01 y :=
  max_le_max le_rfl (min_le_min le_rfl hxy)

/-- C7: for every seed, the clamped output lightness across the 11 weights in
table order is non-increasing: a single constant delta is added to the
strictly decreasing target curve and clamping preserves the order. -/
theorem monotonic_lightness (l : ℚ) :
    List.Chain' (fun a b => b ≤ a) (rampLightness l) := by
  simp only [rampLightness, ALL_WEIGHTS, List.map_cons, List.map_nil,
    List.chain'_cons, List.chain'_singleton, and_true]
  refine ⟨?_, ?_, ?_, ?_, ?_, ?_, ?_, ?_, ?_, ?_⟩ <;>
    (apply clamp01_mono; norm_num [TARGET_LIGHTNESS])

/-- C9: a seed with equal RGB channels has saturation 0; every computed weight
saturation collapses to `TS[w]*0 + (0 - TS[w0]*0) = 0`, and the `s == 0` branch
of `hslToRgb` makes every ramp entry a pure gray whose channels are
`round(clampedLightness * 255)`. -/
theorem achromatic_gray (c : ℚ) :
    (rgbToHsl c c c).2.1 = 0 ∧
    ∀ e ∈ generateRamp (rgbToHsl c c c).1 (rgbToHsl c c c).2.1
        (rgbToHsl c c c).2.2,
      e.2.1 = e.2.2.1 ∧ e.2.2.1 = e.2.2.2 ∧
      e.2.1 = round (clamp01 (TARGET_LIGHTNESS e.1 +
        ((rgbToHsl c c c).2.2 -
          TARGET_LIGHTNESS (findBase (rgbToHsl c c c).2.2))) * 255) := by
  have hs : (rgbToHsl c c c).2.1 = 0 := by
    simp [rgbToHsl, hslS]
  refine ⟨hs, ?_⟩
  intro e he
  rw [hs] at he
  simp only [generateRamp, List.mem_map] at he
  obtain ⟨w, _, rfl⟩ := he
  have hzero : TARGET_SATURATION w * 0 +
      (0 - TARGET_SATURATION (findBase (rgbToHsl c c c).2.2) * 0) = 0 := by
    ring
  rw [hzero]
  have hc0 : clamp01 0 = 0 := by norm_num [clamp01]
  rw [hc0]
  simp [hslToRgb]

/-- Witness for C9 at the gray seed `(120, 120, 120)`. -/
theorem achromatic_gray_witness : (rgbToHsl 120 120 120).2.1 = 0 :=
  (achromatic_gray 120).1

/-- Counterexample to C1: the seed HSL `(0, 0.8, 0.97)` matches weight 50 and
hits the target pair exactly (`S = TS[50] = 0.8`, `L = TL[50] = 0.97`), yet
`saturationDelta = S - TS[50]*S = 0.16 ≠ 0`, and the ramp entry at weight 400
is not the raw target-curve color. -/
theorem identity_at_matched_weight_counterexample :
    findBase (0.97 : ℚ) = 50 ∧
    (0.8 : ℚ) = TARGET_SATURATION 50 ∧ (0.97 : ℚ) = TARGET_LIGHTNESS 50 ∧
    (0.8 : ℚ) - TARGET_SATURATION 50 * 0.8 ≠ 0 ∧
    (generateRamp 0 0.8 0.97)[4]? ≠
      some (400, hslToRgb 0 (TARGET_SATURATION 400) (TARGET_LIGHTNESS 400)) := by
  refine ⟨?_, by norm_num [TARGET_SATURATION], by norm_num [TARGET_LIGHTNESS],
    by norm_num [TARGET_SATURATION], ?_⟩
  · norm_num [findBase, ALL_WEIGHTS, stepMin, TARGET_LIGHTNESS, List.foldl,
      abs_of_nonneg, abs_neg]
  · norm_num [generateRamp, ALL_WEIGHTS, findBase, stepMin, TARGET_LIGHTNESS,
      TARGET_SATURATION, List.foldl, abs_of_nonneg, abs_neg, clamp01,
      hslToRgb, hue2rgb, round_eq]

/-- C1 amended: when the seed `(S, L)` equals the matched weight's targets, the
lightness delta vanishes and the lightness curve is reproduced; the saturation
delta is `S*(1 - TS[w0])`, which vanishes only when additionally `TS[w0] = 1`
(weights 400-600) or `S ∈ {0, 1}` — in that case the whole ramp degenerates to
the raw target curve. -/
theorem identity_at_matched_weight_amended (h s l : ℚ)
    (hs : s = TARGET_SATURATION (findBase l))
    (hl : l = TARGET_LIGHTNESS (findBase l))
    (hone : TARGET_SATURATION (findBase l) = 1) :
    l - TARGET_LIGHTNESS (findBase l) = 0 ∧
    generateRamp h s l = ALL_WEIGHTS.map fun w =>
      (w, hslToRgb h (TARGET_SATURATION w) (TARGET_LIGHTNESS w)) := by
  have hld : l - TARGET_LIGHTNESS (findBase l) = 0 := sub_eq_zero.mpr hl
  have hs1 : s = 1 := hs.trans hone
  subst hs1
  refine ⟨hld, ?_⟩
  rw [generateRamp_eq_map]
  simp only [hld, hone, add_zero, mul_one, sub_self]
  apply List.map_congr_left
  intro w hw
  have hw' : w ∈ ([50, 100, 200, 300, 400, 500, 600, 700, 800, 900,
      950] : List ℕ) := by simpa [ALL_WEIGHTS] using hw
  fin_cases hw' <;>
    norm_num [clamp01, TARGET_SATURATION, TARGET_LIGHTNESS]

/-- Witness for the amended C1 at seed HSL `(0, 1, 0.54)` (matched weight
500). -/
theorem identity_at_matched_weight_amended_witness :
    (1 : ℚ) = TARGET_SATURATION (findBase 0.54) ∧
    (0.54 : ℚ) = TARGET_LIGHTNESS (findBase 0.54) ∧
    TARGET_SATURATION (findBase 0.54) = 1 ∧
    ((0.54 : ℚ) - TARGET_LIGHTNESS (findBase 0.54) = 0 ∧
      generateRamp 0 1 0.54 = ALL_WEIGHTS.map fun w =>
        (w, hslToRgb 0 (TARGET_SATURATION w) (TARGET_LIGHTNESS w))) := by
  have hfb : findBase (0.54 : ℚ) = 500 := by
    norm_num [findBase, ALL_WEIGHTS, stepMin, TARGET_LIGHTNESS, List.foldl,
      abs_of_nonneg, abs_neg]
  refine ⟨?_, ?_, ?_, identity_at_matched_weight_amended 0 1 0.54 ?_ ?_ ?_⟩ <;>
    rw [hfb] <;> norm_num [TARGET_SATURATION, TARGET_LIGHTNESS]

/-- Counterexample to C2: on an unparsable seed the handler has already created
the `'UI Colors'` variable collection (line 337 runs before hex parsing), so
the failed invocation does leave document state behind. -/
theorem error_atomicity_counterexample :
    hexToRgb "not-a-color".toList = none ∧
    FigmaOp.mkCollection "UI Colors".toList ∈
      handleGeneratePalette "Brand".toList "not-a-color".toList := by
  have h : hexToRgb "not-a-color".toList = none := by decide
  refine ⟨h, ?_⟩
  simp [handleGeneratePalette, h]

/-- C2 amended: on a parse failure the handler signals the invalid-format error
and stops — no ramp entry, no paint style, no variable — but the `'UI Colors'`
variable collection has already been created before parsing. -/
theorem error_atomicity_amended (nm hex : List Char)
    (h : hexToRgb hex = none) :
    handleGeneratePalette nm hex =
      [FigmaOp.mkCollection "UI Colors".toList,
        FigmaOp.notifyMsg "Invalid hex code provided.".toList true] := by
  simp [handleGeneratePalette, h]

/-- Witness for the amended C2 at seed `"not-a-color"`. -/
theorem error_atomicity_amended_witness :
    handleGeneratePalette "Brand".toList "not-a-color".toList =
      [FigmaOp.mkCollection "UI Colors".toList,
        FigmaOp.notifyMsg "Invalid hex code provided.".toList true] :=
  error_atomicity_amended "Brand".toList "not-a-color".toList (by decide)


/-- `hue2rgb` on the rising edge `[0, 1/6]`. -/
theorem hue2rgb_rise (p q t : ℚ) (h0 : 0 ≤ t) (h1 : t ≤ 1 / 6) :
    hue2rgb p q t = p + (q - p) * 6 * t := by
  simp only [hue2rgb]
  rw [if_neg (show ¬ t < 0 from not_lt.mpr h0),
    if_neg (show ¬ t > 1 from not_lt.mpr (by linarith))]
  rcases eq_or_lt_of_le h1 with heq | hlt
  · rw [if_neg (show ¬ t < 1 / 6 from not_lt.mpr (le_of_eq heq.symm)),
      if_pos (show t < 1 / 2 by linarith)]
    rw [heq]
    ring
  · rw [if_pos (show t < 1 / 6 from hlt)]

/-- `hue2rgb` on the flat top `[1/6, 1/2]`. -/
theorem hue2rgb_q (p q t : ℚ) (h0 : 1 / 6 ≤ t) (h1 : t ≤ 1 / 2) :
    hue2rgb p q t = q := by
  simp only [hue2rgb]
  rw [if_neg (show ¬ t < 0 from not_lt.mpr (by linarith)),
    if_neg (show ¬ t > 1 from not_lt.mpr (by linarith)),
    if_neg (show ¬ t < 1 / 6 from not_lt.mpr h0)]
  rcases eq_or_lt_of_le h1 with heq | hlt
  · rw [if_neg (show ¬ t < 1 / 2 from not_lt.mpr (le_of_eq heq.symm)),
      if_pos (show t < 2 / 3 by linarith)]
    rw [heq]
    ring
  · rw [if_pos (show t < 1 / 2 from hlt)]

/-- `hue2rgb` on the falling edge `[1/2, 2/3]`. -/
theorem hue2rgb_fall (p q t : ℚ) (h0 : 1 / 2 ≤ t) (h1 : t ≤ 2 / 3) :
    hue2rgb p q t = p + (q - p) * (2 / 3 - t) * 6 := by
  simp only [hue2rgb]
  rw [if_neg (show ¬ t < 0 from not_lt.mpr (by linarith)),
    if_neg (show ¬ t > 1 from not_lt.mpr (by linarith)),
    if_neg (show ¬ t < 1 / 6 from not_lt.mpr (by linarith)),
    if_neg (show ¬ t < 1 / 2 from not_lt.mpr h0)]
  rcases eq_or_lt_of_le h1 with heq | hlt
  · rw [if_neg (show ¬ t < 2 / 3 from not_lt.mpr (le_of_eq heq.symm))]
    rw [heq]
    ring
  · rw [if_pos (show t < 2 / 3 from hlt)]

/-- `hue2rgb` on the flat bottom `[2/3, 1]`. -/
theorem hue2rgb_p (p q t : ℚ) (h0 : 2 / 3 ≤ t) (h1 : t ≤ 1) :
    hue2rgb p q t = p := by
  simp only [hue2rgb]
  rw [if_neg (show ¬ t < 0 from not_lt.mpr (by linarith)),
    if_neg (show ¬ t > 1 from not_lt.mpr h1),
    if_neg (show ¬ t < 1 / 6 from not_lt.mpr (by linarith)),
    if_neg (show ¬ t < 1 / 2 from not_lt.mpr (by linarith)),
    if_neg (show ¬ t < 2 / 3 from not_lt.mpr h0)]

/-- `hue2rgb` on `[-1/3, 0)`: after the wrap, `t + 1` lands on the flat
bottom `[2/3, 1)`. -/
theorem hue2rgb_p_neg (p q t : ℚ) (h0 : -(1 / 3) ≤ t) (h1 : t < 0) :
    hue2rgb p q t = p := by
  simp only [hue2rgb]
  rw [if_pos (show t < 0 from h1),
    if_neg (show ¬ t + 1 > 1 from not_lt.mpr (by linarith)),
    if_neg (show ¬ t + 1 < 1 / 6 from not_lt.mpr (by linarith)),
    if_neg (show ¬ t + 1 < 1 / 2 from not_lt.mpr (by linarith)),
    if_neg (show ¬ t + 1 < 2 / 3 from not_lt.mpr (by linarith))]

/-- `hue2rgb` on `[1, 7/6]`: after the wrap, `t - 1` lands on the rising
edge (at `t = 1` itself the flat bottom gives the same value). -/
theorem hue2rgb_rise_hi (p q t : ℚ) (h0 : 1 ≤ t) (h1 : t ≤ 7 / 6) :
    hue2rgb p q t = p + (q - p) * 6 * (t - 1) := by
  simp only [hue2rgb]
  rw [if_neg (show ¬ t < 0 from not_lt.mpr (by linarith))]
  rcases eq_or_lt_of_le h0 with heq | hgt
  · rw [if_neg (show ¬ t > 1 from not_lt.mpr (le_of_eq heq.symm)),
      if_neg (show ¬ t < 1 / 6 from not_lt.mpr (by linarith)),
      if_neg (show ¬ t < 1 / 2 from not_lt.mpr (by linarith)),
      if_neg (show ¬ t < 2 / 3 from not_lt.mpr (by linarith))]
    rw [← heq]
    ring
  · rw [if_pos (show t > 1 from hgt)]
    rcases eq_or_lt_of_le h1 with heq | hlt
    · rw [if_neg (show ¬ t - 1 < 1 / 6 from not_lt.mpr (by
          rw [heq]; norm_num)),
        if_pos (show t - 1 < 1 / 2 by linarith)]
      rw [heq]
      ring
    · rw [if_pos (show t - 1 < 1 / 6 by linarith)]

/-- `hue2rgb` on `[7/6, 3/2]`: after the wrap, `t - 1` lands on the flat
top. -/
theorem hue2rgb_q_hi (p q t : ℚ) (h0 : 7 / 6 ≤ t) (h1 : t ≤ 3 / 2) :
    hue2rgb p q t = q := by
  simp only [hue2rgb]
  rw [if_neg (show ¬ t < 0 from not_lt.mpr (by linarith)),
    if_pos (show t > 1 by linarith),
    if_neg (show ¬ t - 1 < 1 / 6 from not_lt.mpr (by linarith))]
  rcases eq_or_lt_of_le h1 with heq | hlt
  · rw [if_neg (show ¬ t - 1 < 1 / 2 from not_lt.mpr (by
        rw [heq]; norm_num)),
      if_pos (show t - 1 < 2 / 3 by linarith)]
    rw [heq]
    ring
  · rw [if_pos (show t - 1 < 1 / 2 by linarith)]

/-- Channel evaluation, max = r case with `g ≥ b` (hue in `[0, 1/6]`). -/
theorem hue_channels_maxR_ge (x y z : ℚ) (h1 : z ≤ y) (h2 : y ≤ x)
    (hd : z < x) :
    hue2rgb z x ((y - z) / (x - z) / 6 + 1 / 3) = x ∧
    hue2rgb z x ((y - z) / (x - z) / 6) = y ∧
    hue2rgb z x ((y - z) / (x - z) / 6 - 1 / 3) = z := by
  have hd0 : (0 : ℚ) < x - z := by linarith
  have hdz : x - z ≠ 0 := ne_of_gt hd0
  have hu0 : 0 ≤ (y - z) / (x - z) := div_nonneg (by linarith) (le_of_lt hd0)
  have hu1 : (y - z) / (x - z) ≤ 1 := by
    rw [div_le_one hd0]
    linarith
  refine ⟨?_, ?_, ?_⟩
  · rw [hue2rgb_q _ _ _ (by linarith) (by linarith)]
  · rw [hue2rgb_rise _ _ _ (by linarith) (by linarith)]
    field_simp
    try ring
  · rw [hue2rgb_p_neg _ _ _ (by linarith) (by linarith)]

/-- Channel evaluation, max = r case with `g < b` (hue in `[5/6, 1)`). -/
theorem hue_channels_maxR_lt (x y z : ℚ) (h1 : y < z) (h2 : z ≤ x) :
    hue2rgb y x (((y - z) / (x - y) + 6) / 6 + 1 / 3) = x ∧
    hue2rgb y x (((y - z) / (x - y) + 6) / 6) = y ∧
    hue2rgb y x (((y - z) / (x - y) + 6) / 6 - 1 / 3) = z := by
  have hd0 : (0 : ℚ) < x - y := by linarith
  have hdz : x - y ≠ 0 := ne_of_gt hd0
  have hv0 : (y - z) / (x - y) < 0 := div_neg_of_neg_of_pos (by linarith) hd0
  have hv1 : -1 ≤ (y - z) / (x - y) := by
    rw [le_div_iff hd0]
    linarith
  refine ⟨?_, ?_, ?_⟩
  · rw [hue2rgb_q_hi _ _ _ (by linarith) (by linarith)]
  · rw [hue2rgb_p _ _ _ (by linarith) (by linarith)]
  · rw [hue2rgb_fall _ _ _ (by linarith) (by linarith)]
    field_simp
    try ring

/-- Channel evaluation, max = g case with `min = r` (hue in `[1/3, 1/2]`). -/
theorem hue_channels_maxG_minR (x y z : ℚ) (h1 : x < y) (h2 : x ≤ z)
    (h3 : z ≤ y) :
    hue2rgb x y (((z - x) / (y - x) + 2) / 6 + 1 / 3) = x ∧
    hue2rgb x y (((z - x) / (y - x) + 2) / 6) = y ∧
    hue2rgb x y (((z - x) / (y - x) + 2) / 6 - 1 / 3) = z := by
  have hd0 : (0 : ℚ) < y - x := by linarith
  have hdz : y - x ≠ 0 := ne_of_gt hd0
  have hu0 : 0 ≤ (z - x) / (y - x) := div_nonneg (by linarith) (le_of_lt hd0)
  have hu1 : (z - x) / (y - x) ≤ 1 := by
    rw [div_le_one hd0]
    linarith
  refine ⟨?_, ?_, ?_⟩
  · rw [hue2rgb_p _ _ _ (by linarith) (by linarith)]
  · rw [hue2rgb_q _ _ _ (by linarith) (by linarith)]
  · rw [hue2rgb_rise _ _ _ (by linarith) (by linarith)]
    field_simp
    try ring

/-- Channel evaluation, max = g case with `min = b` (hue in `(1/6, 1/3)`). -/
theorem hue_channels_maxG_minB (x y z : ℚ) (h1 : z < x) (h2 : x < y) :
    hue2rgb z y (((z - x) / (y - z) + 2) / 6 + 1 / 3) = x ∧
    hue2rgb z y (((z - x) / (y - z) + 2) / 6) = y ∧
    hue2rgb z y (((z - x) / (y - z) + 2) / 6 - 1 / 3) = z := by
  have hd0 : (0 : ℚ) < y - z := by linarith
  have hdz : y - z ≠ 0 := ne_of_gt hd0
  have hv0 : (z - x) / (y - z) < 0 := div_neg_of_neg_of_pos (by linarith) hd0
  have hv1 : -1 < (z - x) / (y - z) := by
    rw [lt_div_iff hd0]
    linarith
  refine ⟨?_, ?_, ?_⟩
  · rw [hue2rgb_fall _ _ _ (by linarith) (by linarith)]
    field_simp
    try ring
  · rw [hue2rgb_q _ _ _ (by linarith) (by linarith)]
  · rw [hue2rgb_p_neg _ _ _ (by linarith) (by linarith)]

/-- Channel evaluation, max = b case with `min = g` (hue in `[2/3, 5/6)`). -/
theorem hue_channels_maxB_minG (x y z : ℚ) (h1 : y ≤ x) (h2 : x < z) :
    hue2rgb y z (((x - y) / (z - y) + 4) / 6 + 1 / 3) = x ∧
    hue2rgb y z (((x - y) / (z - y) + 4) / 6) = y ∧
    hue2rgb y z (((x - y) / (z - y) + 4) / 6 - 1 / 3) = z := by
  have hd0 : (0 : ℚ) < z - y := by linarith
  have hdz : z - y ≠ 0 := ne_of_gt hd0
  have hu0 : 0 ≤ (x - y) / (z - y) := div_nonneg (by linarith) (le_of_lt hd0)
  have hu1 : (x - y) / (z - y) < 1 := by
    rw [div_lt_one hd0]
    linarith
  refine ⟨?_, ?_, ?_⟩
  · rw [hue2rgb_rise_hi _ _ _ (by linarith) (by linarith)]
    field_simp
    try ring
  · rw [hue2rgb_p _ _ _ (by linarith) (by linarith)]
  · rw [hue2rgb_q _ _ _ (by linarith) (by linarith)]

/-- Channel evaluation, max = b case with `min = r` (hue in `(1/2, 2/3)`). -/
theorem hue_channels_maxB_minR (x y z : ℚ) (h1 : x < y) (h2 : y < z) :
    hue2rgb x z (((x - y) / (z - x) + 4) / 6 + 1 / 3) = x ∧
    hue2rgb x z (((x - y) / (z - x) + 4) / 6) = y ∧
    hue2rgb x z (((x - y) / (z - x) + 4) / 6 - 1 / 3) = z := by
  have hd0 : (0 : ℚ) < z - x := by linarith
  have hdz : z - x ≠ 0 := ne_of_gt hd0
  have hv0 : (x - y) / (z - x) < 0 := div_neg_of_neg_of_pos (by linarith) hd0
  have hv1 : -1 < (x - y) / (z - x) := by
    rw [lt_div_iff hd0]
    linarith
  refine ⟨?_, ?_, ?_⟩
  · rw [hue2rgb_p _ _ _ (by linarith) (by linarith)]
  · rw [hue2rgb_fall _ _ _ (by linarith) (by linarith)]
    field_simp
    try ring
  · rw [hue2rgb_q _ _ _ (by linarith) (by linarith)]

/-- In the chromatic case, `q` as computed by `hslToRgb` from
`(hslS, hslL)` recovers the maximum channel exactly. -/
theorem hsl_q_eq_max (x y z : ℚ) (h0x : 0 ≤ x) (h0y : 0 ≤ y) (h0z : 0 ≤ z)
    (h1x : x ≤ 1) (h1y : y ≤ 1) (h1z : z ≤ 1)
    (hne : max x (max y z) ≠ min x (min y z)) :
    (if hslL x y z < 1 / 2 then hslL x y z * (1 + hslS x y z)
     else hslL x y z + hslS x y z - hslL x y z * hslS x y z) =
      max x (max y z) := by
  have hle : min x (min y z) ≤ max x (max y z) :=
    le_trans (min_le_left _ _) (le_max_left _ _)
  have hmM : min x (min y z) < max x (max y z) := hle.lt_of_ne (Ne.symm hne)
  have hm0 : 0 ≤ min x (min y z) := le_min h0x (le_min h0y h0z)
  have hM1 : max x (max y z) ≤ 1 := max_le h1x (max_le h1y h1z)
  have hsum : 0 < max x (max y z) + min x (min y z) := by linarith
  have hsum2 : 0 < 2 - max x (max y z) - min x (min y z) := by linarith
  rcases lt_trichotomy (hslL x y z) (1 / 2) with hlt | heqL | hgt
  · rw [if_pos hlt]
    simp only [hslS]
    rw [if_neg hne, if_neg (not_lt.mpr (le_of_lt hlt))]
    simp only [hslL] at hlt ⊢
    field_simp
    ring
  · rw [if_neg (not_lt.mpr (le_of_eq heqL.symm))]
    simp only [hslS]
    rw [if_neg hne, if_neg (not_lt.mpr (le_of_eq heqL))]
    simp only [hslL] at heqL ⊢
    have hsum1 : max x (max y z) + min x (min y z) = 1 := by linarith
    rw [hsum1]
    norm_num
    linarith
  · rw [if_neg (not_lt.mpr (le_of_lt hgt))]
    simp only [hslS]
    rw [if_neg hne, if_pos hgt]
    simp only [hslL] at hgt ⊢
    field_simp
    ring

/-- In the chromatic case the computed saturation is nonzero, so `hslToRgb`
takes its interpolating branch. -/
theorem hslS_ne_zero (x y z : ℚ) (h0x : 0 ≤ x) (h0y : 0 ≤ y) (h0z : 0 ≤ z)
    (h1x : x ≤ 1) (h1y : y ≤ 1) (h1z : z ≤ 1)
    (hne : max x (max y z) ≠ min x (min y z)) :
    hslS x y z ≠ 0 := by
  have hle : min x (min y z) ≤ max x (max y z) :=
    le_trans (min_le_left _ _) (le_max_left _ _)
  have hmM : min x (min y z) < max x (max y z) := hle.lt_of_ne (Ne.symm hne)
  have hm0 : 0 ≤ min x (min y z) := le_min h0x (le_min h0y h0z)
  have hM1 : max x (max y z) ≤ 1 := max_le h1x (max_le h1y h1z)
  have hsum : 0 < max x (max y z) + min x (min y z) := by linarith
  have hsum2 : 0 < 2 - max x (max y z) - min x (min y z) := by linarith
  simp only [hslS]
  rw [if_neg hne]
  split_ifs with hgt
  · exact ne_of_gt (div_pos (by linarith) hsum2)
  · exact ne_of_gt (div_pos (by linarith) hsum)

/-- Chromatic case of the HSL round trip: `hslToRgb` applied to the HSL triple
of normalized channels `(x, y, z)` reproduces each channel exactly (before the
final 8-bit rounding, which therefore also agrees). -/
theorem hslToRgb_hsl_chroma (x y z : ℚ) (h0x : 0 ≤ x) (h0y : 0 ≤ y)
    (h0z : 0 ≤ z) (h1x : x ≤ 1) (h1y : y ≤ 1) (h1z : z ≤ 1)
    (hne : max x (max y z) ≠ min x (min y z)) :
    hslToRgb (hslH x y z) (hslS x y z) (hslL x y z) =
      (round (x * 255), round (y * 255), round (z * 255)) := by
  have hle : min x (min y z) ≤ max x (max y z) :=
    le_trans (min_le_left _ _) (le_max_left _ _)
  have hmM : min x (min y z) < max x (max y z) := hle.lt_of_ne (Ne.symm hne)
  have hxM : x ≤ max x (max y z) := le_max_left _ _
  have hyM : y ≤ max x (max y z) := le_trans (le_max_left y z) (le_max_right _ _)
  have hzM : z ≤ max x (max y z) := le_trans (le_max_right y z) (le_max_right _ _)
  have hmx : min x (min y z) ≤ x := min_le_left _ _
  have hmy : min x (min y z) ≤ y := le_trans (min_le_right _ _) (min_le_left _ _)
  have hmz : min x (min y z) ≤ z := le_trans (min_le_right _ _) (min_le_right _ _)
  simp only [hslToRgb]
  rw [if_neg (hslS_ne_zero x y z h0x h0y h0z h1x h1y h1z hne)]
  rw [hsl_q_eq_max x y z h0x h0y h0z h1x h1y h1z hne]
  have hp : 2 * hslL x y z - max x (max y z) = min x (min y z) := by
    simp only [hslL]
    ring
  rw [hp]
  by_cases hMx : max x (max y z) = x
  · have hyx : y ≤ x := hMx ▸ hyM
    have hzx : z ≤ x := hMx ▸ hzM
    by_cases hyz : y < z
    · have hm : min x (min y z) = y := by
        rw [min_eq_left (le_of_lt hyz), min_eq_right (hMx ▸ hyM)]
      have hH : hslH x y z = ((y - z) / (x - y) + 6) / 6 := by
        simp only [hslH]
        rw [if_neg hne, if_pos hMx, if_pos hyz, hMx, hm]
      rw [hH, hm, hMx]
      obtain ⟨e1, e2, e3⟩ := hue_channels_maxR_lt x y z hyz hzx
      rw [e1, e2, e3]
    · have hzy : z ≤ y := not_lt.mp hyz
      have hm : min x (min y z) = z := by
        rw [min_eq_right hzy, min_eq_right (hMx ▸ hzM)]
      have hzx : z < x := by
        have := hmM
        rw [hMx, hm] at this
        exact this
      have hH : hslH x y z = (y - z) / (x - z) / 6 := by
        simp only [hslH]
        rw [if_neg hne, if_pos hMx, if_neg hyz, hMx, hm, add_zero]
      rw [hH, hm, hMx]
      obtain ⟨e1, e2, e3⟩ := hue_channels_maxR_ge x y z hzy hyx hzx
      rw [e1, e2, e3]
  · by_cases hMy : max x (max y z) = y
    · have hxy : x < y := by
        rcases eq_or_lt_of_le (hMy ▸ hxM) with heq | hlt
        · exact absurd (hMy.trans heq.symm) hMx
        · exact hlt
      have hzy : z ≤ y := hMy ▸ hzM
      by_cases hxz : x ≤ z
      · have hm : min x (min y z) = x :=
          min_eq_left (le_min (le_of_lt hxy) hxz)
        have hH : hslH x y z = ((z - x) / (y - x) + 2) / 6 := by
          simp only [hslH]
          rw [if_neg hne, if_neg hMx, if_pos hMy, hMy, hm]
        rw [hH, hm, hMy]
        obtain ⟨e1, e2, e3⟩ := hue_channels_maxG_minR x y z hxy hxz hzy
        rw [e1, e2, e3]
      · have hzx : z < x := not_le.mp hxz
        have hm : min x (min y z) = z := by
          rw [min_eq_right (le_trans (le_of_lt hzx) (le_of_lt hxy)),
            min_eq_right (le_of_lt hzx)]
        have hH : hslH x y z = ((z - x) / (y - z) + 2) / 6 := by
          simp only [hslH]
          rw [if_neg hne, if_neg hMx, if_pos hMy, hMy, hm]
        rw [hH, hm, hMy]
        obtain ⟨e1, e2, e3⟩ := hue_channels_maxG_minB x y z hzx hxy
        rw [e1, e2, e3]
    · have hMz : max x (max y z) = z := by
        rcases max_choice x (max y z) with h | h
        · exact absurd h hMx
        · rcases max_choice y z with h2 | h2
          · exact absurd (h.trans h2) hMy
          · exact h.trans h2
      have hxz : x < z := by
        rcases eq_or_lt_of_le (hMz ▸ hxM) with heq | hlt
        · exact absurd (hMz.trans heq.symm) hMx
        · exact hlt
      have hyz : y < z := by
        rcases eq_or_lt_of_le (hMz ▸ hyM) with heq | hlt
        · exact absurd (hMz.trans heq.symm) hMy
        · exact hlt
      by_cases hyx : y ≤ x
      · have hm : min x (min y z) = y := by
          rw [min_eq_left (le_of_lt hyz), min_eq_right hyx]
        have hH : hslH x y z = ((x - y) / (z - y) + 4) / 6 := by
          simp only [hslH]
          rw [if_neg hne, if_neg hMx, if_neg hMy, if_pos hMz, hMz, hm]
        rw [hH, hm, hMz]
        obtain ⟨e1, e2, e3⟩ := hue_channels_maxB_minG x y z hyx hxz
        rw [e1, e2, e3]
      · have hxy : x < y := not_le.mp hyx
        have hm : min x (min y z) = x := by
          rw [min_eq_left (le_of_lt hyz), min_eq_left (le_of_lt hxy)]
        have hH : hslH x y z = ((x - y) / (z - x) + 4) / 6 := by
          simp only [hslH]
          rw [if_neg hne, if_neg hMx, if_neg hMy, if_pos hMz, hMz, hm]
        rw [hH, hm, hMz]
        obtain ⟨e1, e2, e3⟩ := hue_channels_maxB_minR x y z hxy hyz
        rw [e1, e2, e3]

/-- Full HSL round trip on normalized channels: exact in rational
arithmetic. -/
theorem hslToRgb_hsl_exact (x y z : ℚ) (h0x : 0 ≤ x) (h0y : 0 ≤ y)
    (h0z : 0 ≤ z) (h1x : x ≤ 1) (h1y : y ≤ 1) (h1z : z ≤ 1) :
    hslToRgb (hslH x y z) (hslS x y z) (hslL x y z) =
      (round (x * 255), round (y * 255), round (z * 255)) := by
  by_cases hne : max x (max y z) = min x (min y z)
  · have hxe : x = min x (min y z) :=
      le_antisymm (hne ▸ le_max_left x (max y z)) (min_le_left _ _)
    have hye : y = min x (min y z) :=
      le_antisymm (hne ▸ le_trans (le_max_left y z) (le_max_right _ _))
        (le_trans (min_le_right _ _) (min_le_left _ _))
    have hze : z = min x (min y z) :=
      le_antisymm (hne ▸ le_trans (le_max_right y z) (le_max_right _ _))
        (le_trans (min_le_right _ _) (min_le_right _ _))
    have hxy : x = y := hxe.trans hye.symm
    have hyz : y = z := hye.trans hze.symm
    subst hxy
    subst hyz
    have hL : hslL x x x = x := by
      simp [hslL]
    have hS : hslS x x x = 0 := by
      simp [hslS]
    rw [hL, hS]
    simp [hslToRgb]
  · exact hslToRgb_hsl_chroma x y z h0x h0y h0z h1x h1y h1z hne

/-- C8: for every color with integer 8-bit channels, `hslToRgb (rgbToHsl c)`
differs from `c` by at most 1 per channel (in exact rational arithmetic the
round trip is in fact exact, so the 8-bit rounding loss is 0). -/
theorem hsl_roundtrip_tolerance (r g b : ℕ) (hr : r ≤ 255) (hg : g ≤ 255)
    (hb : b ≤ 255) :
    ((hslToRgb (rgbToHsl (r : ℚ) (g : ℚ) (b : ℚ)).1
        (rgbToHsl (r : ℚ) (g : ℚ) (b : ℚ)).2.1
        (rgbToHsl (r : ℚ) (g : ℚ) (b : ℚ)).2.2).1 - (r : ℤ)).natAbs ≤ 1 ∧
    ((hslToRgb (rgbToHsl (r : ℚ) (g : ℚ) (b : ℚ)).1
        (rgbToHsl (r : ℚ) (g : ℚ) (b : ℚ)).2.1
        (rgbToHsl (r : ℚ) (g : ℚ) (b : ℚ)).2.2).2.1 - (g : ℤ)).natAbs ≤ 1 ∧
    ((hslToRgb (rgbToHsl (r : ℚ) (g : ℚ) (b : ℚ)).1
        (rgbToHsl (r : ℚ) (g : ℚ) (b : ℚ)).2.1
        (rgbToHsl (r : ℚ) (g : ℚ) (b : ℚ)).2.2).2.2 - (b : ℤ)).natAbs ≤ 1 := by
  have key := hslToRgb_hsl_exact ((r : ℚ) / 255) ((g : ℚ) / 255)
    ((b : ℚ) / 255) (by positivity) (by positivity) (by positivity)
    (by rw [div_le_one (by norm_num)]; exact_mod_cast hr)
    (by rw [div_le_one (by norm_num)]; exact_mod_cast hg)
    (by rw [div_le_one (by norm_num)]; exact_mod_cast hb)
  have hrgb : rgbToHsl (r : ℚ) (g : ℚ) (b : ℚ) =
      (hslH ((r : ℚ) / 255) ((g : ℚ) / 255) ((b : ℚ) / 255),
        hslS ((r : ℚ) / 255) ((g : ℚ) / 255) ((b : ℚ) / 255),
        hslL ((r : ℚ) / 255) ((g : ℚ) / 255) ((b : ℚ) / 255)) := rfl
  have hmulr : (r : ℚ) / 255 * 255 = (r : ℚ) := by field_simp
  have hmulg : (g : ℚ) / 255 * 255 = (g : ℚ) := by field_simp
  have hmulb : (b : ℚ) / 255 * 255 = (b : ℚ) := by field_simp
  rw [hmulr, hmulg, hmulb, round_natCast, round_natCast, round_natCast] at key
  rw [hrgb]
  simp only [key]
  norm_num

/-- Witness for C8 at the color `(59, 130, 246)`. -/
theorem hsl_roundtrip_tolerance_witness :
    ((hslToRgb (rgbToHsl (59 : ℚ) (130 : ℚ) (246 : ℚ)).1
        (rgbToHsl (59 : ℚ) (130 : ℚ) (246 : ℚ)).2.1
        (rgbToHsl (59 : ℚ) (130 : ℚ) (246 : ℚ)).2.2).1 -
      ((59 : ℕ) : ℤ)).natAbs ≤ 1 ∧
    ((hslToRgb (rgbToHsl (59 : ℚ) (130 : ℚ) (246 : ℚ)).1
        (rgbToHsl (59 : ℚ) (130 : ℚ) (246 : ℚ)).2.1
        (rgbToHsl (59 : ℚ) (130 : ℚ) (246 : ℚ)).2.2).2.1 -
      ((130 : ℕ) : ℤ)).natAbs ≤ 1 ∧
    ((hslToRgb (rgbToHsl (59 : ℚ) (130 : ℚ) (246 : ℚ)).1
        (rgbToHsl (59 : ℚ) (130 : ℚ) (246 : ℚ)).2.1
        (rgbToHsl (59 : ℚ) (130 : ℚ) (246 : ℚ)).2.2).2.2 -
      ((246 : ℕ) : ℤ)).natAbs ≤ 1 := by
  have := hsl_roundtrip_tolerance 59 130 246 (by norm_num) (by norm_num)
    (by norm_num)
  simpa using this
